import Mathlib

/-!
Verification development for the arrow-extendr conversion layer
(src/from.rs and src/to.rs): bridging arrow-rs values and R host
objects through the Arrow C Data Interface.

The Rust sources are shallowly embedded as executable Lean functions.
Host-side R calls (the nanoarrow and arrow package capabilities) are
modelled as an environment `HostEnv` plus an effect trace recording
each capability invocation; pointer-address plumbing across the C
boundary is modelled as value passing.  Machine buffers crossing the
boundary are modelled bit-faithfully: fixed-width values travel as
little-endian byte lists and validity bitmaps as LSB-first packed
bytes, exactly as in the Arrow C Data Interface.
-/

namespace ArrowExtendr

/-! ### Byte-level buffer encoding (Arrow C Data Interface buffers) -/

/-- Little-endian byte encoding of a natural number into `k` bytes. -/
def natToLE : Nat → Nat → List Nat
  | 0, _ => []
  | k + 1, n => n % 256 :: natToLE k (n / 256)

/-- Little-endian byte decoding. -/
def leToNat : List Nat → Nat
  | [] => 0
  | b :: bs => b + 256 * leToNat bs

/-- Concatenated little-endian encoding of a list of fixed-width values. -/
def encodeVals (k : Nat) (vs : List Nat) : List Nat :=
  (vs.map (natToLE k)).flatten

/-- Decode `count` fixed-width values from a byte buffer. -/
def decodeVals : Nat → Nat → List Nat → List Nat
  | _, 0, _ => []
  | k, c + 1, bytes => leToNat (bytes.take k) :: decodeVals k c (bytes.drop k)

/-! ### Validity bitmap packing (LSB-first, as in the Arrow format) -/

/-- Pack up to eight booleans into one byte, least significant bit first. -/
def bitsToByte : List Bool → Nat
  | [] => 0
  | b :: bs => (if b then 1 else 0) + 2 * bitsToByte bs

/-- Extract `k` bits from a byte, least significant bit first. -/
def bitsOfByte : Nat → Nat → List Bool
  | 0, _ => []
  | k + 1, n => decide (n % 2 = 1) :: bitsOfByte k (n / 2)

/-- Pack a validity sequence into bytes, eight bits per byte. -/
def packBits (bs : List Bool) : List Nat :=
  if h : bs = [] then []
  else bitsToByte (bs.take 8) :: packBits (bs.drop 8)
termination_by bs.length
decreasing_by
  cases bs with
  | nil => exact absurd rfl h
  | cons x xs =>
    simp [List.length_drop]
    omega

/-- Unpack the first `n` validity bits from a byte buffer. -/
def unpackBits (bytes : List Nat) (n : Nat) : List Bool :=
  ((bytes.map (bitsOfByte 8)).flatten).take n

/-! ### Native data model: the arrow-rs datatype fragment used by the bridge

The embedding covers the fixed-width primitive types, booleans, utf8 and
binary, nested struct and list types, and the run-end encoded type (which has
no Arrow C ABI format string in the arrow-rs version used by the repository).
Floating point values travel as raw bit patterns, so they are carried as
fixed-width naturals here. -/

/-- Fixed-width primitive types (the `ArrowPrimitiveType` instances modelled). -/
inductive PrimType where
  | int8 | int16 | int32 | int64
  | uint8 | uint16 | uint32 | uint64
  | float32 | float64
deriving DecidableEq

/-- Width in bytes of one element. -/
def PrimType.byteWidth : PrimType → Nat
  | .int8 => 1 | .int16 => 2 | .int32 => 4 | .int64 => 8
  | .uint8 => 1 | .uint16 => 2 | .uint32 => 4 | .uint64 => 8
  | .float32 => 4 | .float64 => 8

/-- Arrow C Data Interface format string of a primitive type. -/
def PrimType.formatStr : PrimType → String
  | .int8 => "c" | .int16 => "s" | .int32 => "i" | .int64 => "l"
  | .uint8 => "C" | .uint16 => "S" | .uint32 => "I" | .uint64 => "L"
  | .float32 => "f" | .float64 => "g"

mutual

/-- Arrow-rs `DataType` (the fragment exercised by the bridge). -/
inductive DataType where
  | boolean
  | prim (p : PrimType)
  | utf8
  | binary
  | struct (fields : List Field)
  | list (item : Field)
  | runEndEncoded (runEnds : Field) (values : Field)

/-- Arrow-rs `Field`: name, data type and nullability. -/
inductive Field where
  | mk (name : String) (dataType : DataType) (nullable : Bool)

end

/-- Name component of a field. -/
def Field.name : Field → String
  | .mk n _ _ => n

/-- Data type component of a field. -/
def Field.dataType : Field → DataType
  | .mk _ dt _ => dt

/-- Nullability component of a field. -/
def Field.nullable : Field → Bool
  | .mk _ _ nb => nb

/-- Arrow-rs `Schema` (metadata is not modelled). -/
structure Schema where
  fields : List Field

/-- Format string of a data type per the Arrow C Data Interface, or `none`
when arrow-rs has no C ABI mapping for it (the catch-all error arm of
`get_format_string`; run-end encoded arrays fall there). -/
def DataType.formatStr : DataType → Option String
  | .boolean => some "b"
  | .prim p => some p.formatStr
  | .utf8 => some "u"
  | .binary => some "z"
  | .struct _ => some "+s"
  | .list _ => some "+l"
  | .runEndEncoded _ _ => none

/-- Leaf data type denoted by a format string, if any. -/
def primOfFormat : String → Option DataType
  | "b" => some .boolean
  | "c" => some (.prim .int8)
  | "s" => some (.prim .int16)
  | "i" => some (.prim .int32)
  | "l" => some (.prim .int64)
  | "C" => some (.prim .uint8)
  | "S" => some (.prim .uint16)
  | "I" => some (.prim .uint32)
  | "L" => some (.prim .uint64)
  | "f" => some (.prim .float32)
  | "g" => some (.prim .float64)
  | "u" => some .utf8
  | "z" => some .binary
  | _ => none

/-! ### The C ABI schema struct and its arrow-rs conversions

`FFISchema` models the populated `FFI_ArrowSchema` C struct: format string,
name, the nullable flag, and child structs in declaration order.  The
conversions below model `FFI_ArrowSchema::try_from` for `Field` and
`Field::try_from(&FFI_ArrowSchema)` from the arrow-rs ffi module, which the
repository calls on every schema-like path. -/

/-- Populated Arrow C ABI schema descriptor struct. -/
inductive FFISchema where
  | mk (format : String) (name : String) (nullable : Bool) (children : List FFISchema)

/-- Format field of the C schema struct. -/
def FFISchema.format : FFISchema → String
  | .mk f _ _ _ => f

/-- Name field of the C schema struct. -/
def FFISchema.name : FFISchema → String
  | .mk _ n _ _ => n

/-- Nullable flag of the C schema struct. -/
def FFISchema.nullable : FFISchema → Bool
  | .mk _ _ nb _ => nb

/-- Children of the C schema struct. -/
def FFISchema.children : FFISchema → List FFISchema
  | .mk _ _ _ cs => cs

/-- An `FFI_ArrowSchema::empty()` struct, before any host export fills it. -/
def FFISchema.empty : FFISchema := .mk "" "" false []

mutual

/-- Models `FFI_ArrowSchema::try_from(&Field)`: `none` is the conversion
error for a type with no C ABI format string. -/
def exportField : Field → Option FFISchema
  | .mk n dt nb =>
    match dt.formatStr with
    | none => none
    | some fmt =>
      match exportChildren dt with
      | none => none
      | some cs => some (.mk fmt n nb cs)

/-- Child schema structs of a data type, in declaration order. -/
def exportChildren : DataType → Option (List FFISchema)
  | .struct fs => exportFieldList fs
  | .list f =>
    match exportField f with
    | none => none
    | some c => some [c]
  | .runEndEncoded _ _ => none
  | _ => some []

/-- Export a field list, failing if any field fails. -/
def exportFieldList : List Field → Option (List FFISchema)
  | [] => some []
  | f :: fs =>
    match exportField f with
    | none => none
    | some c =>
      match exportFieldList fs with
      | none => none
      | some cs => some (c :: cs)

end

/-- Error type mirroring the arrow-rs `ArrowError` variants the bridge uses. -/
inductive ArrowErr where
  | parseError (msg : String)
  | cDataInterface (msg : String)
  | schemaError (msg : String)
  | invalidArgument (msg : String)

mutual

/-- Models `Field::try_from(&FFI_ArrowSchema)`: parse the format string and
rebuild the native field, recursing over children in order. -/
def importField : FFISchema → Except ArrowErr Field
  | .mk fmt n nb cs =>
    match fmt with
    | "+s" =>
      match importFieldList cs with
      | .error e => .error e
      | .ok fs => .ok (.mk n (.struct fs) nb)
    | "+l" =>
      match cs with
      | [c] =>
        match importField c with
        | .error e => .error e
        | .ok f => .ok (.mk n (.list f) nb)
      | _ => .error (.cDataInterface "a list type must have exactly one child")
    | _ =>
      match primOfFormat fmt with
      | some dt => .ok (.mk n dt nb)
      | none => .error (.cDataInterface "unsupported or malformed format string")

/-- Import a child list in declaration order, failing on the first error. -/
def importFieldList : List FFISchema → Except ArrowErr (List Field)
  | [] => .ok []
  | c :: cs =>
    match importField c with
    | .error e => .error e
    | .ok f =>
      match importFieldList cs with
      | .error e => .error e
      | .ok fs => .ok (f :: fs)

end

/-- Models `DataType::try_from(&FFI_ArrowSchema)`. -/
def DataType.try_from (c : FFISchema) : Except ArrowErr DataType :=
  match importField c with
  | .error e => .error e
  | .ok f => .ok f.dataType

/-- Models `FFI_ArrowSchema::try_from(&DataType)`. -/
def exportDataTypeFFI (dt : DataType) : Option FFISchema :=
  exportField (.mk "" dt false)

/-- Models `FFI_ArrowSchema::try_from(&Schema)`: the schema crosses as a
struct-typed descriptor whose children are the fields. -/
def exportSchemaFFI (s : Schema) : Option FFISchema :=
  exportField (.mk "" (.struct s.fields) false)

/-- Models `Schema::try_from(&FFI_ArrowSchema)`. -/
def Schema.try_from (c : FFISchema) : Except ArrowErr Schema :=
  match importField c with
  | .error e => .error e
  | .ok f =>
    match f.dataType with
    | .struct fs => .ok ⟨fs⟩
    | _ => .error (.cDataInterface "a schema must cross as a struct descriptor")

/-! ### The C ABI array struct and the arrow-rs array conversions

`ArrayData` models arrow-rs array data for the fixed-width primitive
fragment: element values are the raw bit patterns, validity is the logical
per-element validity sequence.  Offsets are fixed at zero in this fragment
(primitive arrays built from vectors, as in the repository, have offset
zero).  `to_ffi` and `from_ffi` model the arrow-rs ffi module functions of
the same names. -/

/-- Arrow-rs `ArrayData`, primitive fixed-width fragment. -/
structure ArrayData where
  ptype : PrimType
  len : Nat
  nulls : Option (List Bool)
  values : List Nat

/-- Well-formedness of primitive array data: buffers agree with the length
and every value fits its width. -/
def ArrayData.WF (a : ArrayData) : Prop :=
  a.values.length = a.len ∧
  (match a.nulls with
   | none => True
   | some v => v.length = a.len) ∧
  (∀ x ∈ a.values, x < 256 ^ a.ptype.byteWidth)

/-- Null count of array data (number of invalid slots). -/
def nullCountOf : Option (List Bool) → Nat
  | none => 0
  | some v => v.count false

/-- Populated Arrow C ABI array descriptor struct: length, null count, an
optional validity bitmap buffer and the fixed-width data buffer (bytes). -/
structure FFIArray where
  length : Nat
  null_count : Nat
  validity : Option (List Nat)
  data : List Nat

/-- An `FFI_ArrowArray::empty()` struct, before any host export fills it. -/
def FFIArray.empty : FFIArray := ⟨0, 0, none, []⟩

/-- Models arrow-rs `to_ffi`: serialize array data into the paired
array-descriptor and schema-descriptor structs. -/
def to_ffi (a : ArrayData) : FFIArray × FFISchema :=
  (⟨a.len, nullCountOf a.nulls, a.nulls.map packBits,
    encodeVals a.ptype.byteWidth a.values⟩,
   .mk a.ptype.formatStr "" true [])

/-- Primitive type denoted by a data type, if any. -/
def primTypeOf : DataType → Option PrimType
  | .prim p => some p
  | _ => none

/-- Models arrow-rs `from_ffi`: resolve the type from the schema struct and
rebuild array data from the buffers, validating buffer sizes.  This embedding
covers the fixed-width primitive layout; other layouts report a C data
interface error. -/
def from_ffi (arr : FFIArray) (sch : FFISchema) : Except ArrowErr ArrayData :=
  match importField sch with
  | .error e => .error e
  | .ok f =>
    match primTypeOf f.dataType with
    | none => .error (.cDataInterface "unsupported buffer layout in this embedding")
    | some p =>
      let k := p.byteWidth
      if arr.data.length < arr.length * k then
        .error (.cDataInterface "data buffer too small for the declared length")
      else
        match arr.validity with
        | none => .ok ⟨p, arr.length, none, decodeVals k arr.length arr.data⟩
        | some bytes =>
          if 8 * bytes.length < arr.length then
            .error (.cDataInterface "validity buffer too small for the declared length")
          else
            .ok ⟨p, arr.length, some (unpackBits bytes arr.length),
                 decodeVals k arr.length arr.data⟩

/-! ### Batches, streams and the R host object model

A `RecordBatch` is a schema plus columns.  A batch stream crossing the C
boundary is a schema plus a finite ordered sequence of pull results, each
either a batch or a producer error; pulling past the end yields the end
sentinel.  `Robj` models the opaque R host value: the recognized wrapper
classes carry their payloads, and `foreign` stands for any other value,
carrying only its class attribute.  Class-tag classification (`inherits`)
reads only the class list, never a payload. -/

/-- Arrow-rs `RecordBatch`: schema and columns. -/
structure RecordBatch where
  schema : Schema
  columns : List ArrayData

/-- Models `RecordBatch::try_new`: the column count must match the field
count and all columns must share one length.  (The per-column type check of
arrow-rs is not modelled.) -/
def RecordBatch.try_new (s : Schema) (cols : List ArrayData) :
    Except ArrowErr RecordBatch :=
  if cols.length ≠ s.fields.length then
    .error (.invalidArgument "number of columns must match number of fields")
  else
    match cols with
    | [] => .ok ⟨s, []⟩
    | c :: rest =>
      if rest.all (fun x => x.len == c.len) then .ok ⟨s, c :: rest⟩
      else .error (.invalidArgument "all columns must have the same length")

/-- Arrow-rs `ArrowArrayStreamReader`: the fixed schema (fetched once at
construction) and the remaining pull results. -/
structure ArrowArrayStreamReader where
  schema : Schema
  items : List (Except ArrowErr RecordBatch)

/-- Models one `next()` call on the reader: the next pull result, or `none`
as the end sentinel once the producer is exhausted. -/
def ArrowArrayStreamReader.next :
    ArrowArrayStreamReader → Option (Except ArrowErr RecordBatch) × ArrowArrayStreamReader
  | ⟨s, []⟩ => (none, ⟨s, []⟩)
  | ⟨s, x :: xs⟩ => (some x, ⟨s, xs⟩)

/-- Sequence of results from `n` successive `next()` calls, with the reader
state afterwards. -/
def ArrowArrayStreamReader.pullN :
    ArrowArrayStreamReader → Nat →
      List (Option (Except ArrowErr RecordBatch)) × ArrowArrayStreamReader
  | r, 0 => ([], r)
  | r, n + 1 =>
    let p := r.next
    let q := p.2.pullN n
    (p.1 :: q.1, q.2)

/-- Opaque R host value. -/
inductive Robj where
  | naSchema (sch : FFISchema)
  | naArray (arr : FFIArray) (sch : FFISchema)
  | naStream (schema : Schema) (items : List (Except ArrowErr RecordBatch))
  | arrowField (f : Field)
  | arrowDataType (dt : DataType)
  | arrowSchema (s : Schema)
  | arrowArray (a : ArrayData)
  | arrowRecordBatch (b : RecordBatch)
  | foreign (classes : List String)

/-- Class attribute of the host value, as R reports it. -/
def Robj.classes : Robj → List String
  | .naSchema _ => ["nanoarrow_schema"]
  | .naArray _ _ => ["nanoarrow_array"]
  | .naStream _ _ => ["nanoarrow_array_stream"]
  | .arrowField _ => ["Field", "ArrowObject", "R6"]
  | .arrowDataType _ => ["DataType", "ArrowObject", "R6"]
  | .arrowSchema _ => ["Schema", "ArrowObject", "R6"]
  | .arrowArray _ => ["Array", "ArrowDatum", "ArrowObject", "R6"]
  | .arrowRecordBatch _ => ["RecordBatch", "ArrowTabular", "ArrowObject", "R6"]
  | .foreign cs => cs

/-- Models `robj.inherits(cls)`: membership in the class attribute.  This is
the capability classifier; it touches no pointer. -/
def Robj.inherits (robj : Robj) (cls : String) : Bool :=
  robj.classes.contains cls

/-! ### The conversion monad: host environment, results and effect traces

`HostEnv` records whether the nanoarrow package is installed.  `RResult`
distinguishes a normal return, a typed `Err` return, and a Rust panic (an
`expect`/`unwrap` firing).  Every host-capability invocation is recorded in
an effect trace; each recorded call is a pointer use on the host side, so an
empty trace means no pointer was dereferenced or written. -/

/-- Host runtime environment. -/
structure HostEnv where
  nanoarrow : Bool

/-- Outcome of running an embedded Rust function. -/
inductive RResult (α : Type) where
  | ok (val : α)
  | err (e : ArrowErr)
  | panicked (msg : String)

/-- True exactly when the outcome is a typed `Err` return value. -/
def RResult.isTypedErr : RResult α → Bool
  | .err _ => true
  | _ => false

/-- Host capability invocations (each one works through raw pointers). -/
inductive Effect where
  | nanoarrowCall (fname : String)
  | methodCall (mname : String)

/-- A conversion computation: runs against the host environment, produces an
outcome and the trace of host-capability calls it made. -/
def Conv (α : Type) : Type := HostEnv → RResult α × List Effect

/-- Lift a value. -/
def Conv.pure (a : α) : Conv α := fun _ => (.ok a, [])

/-- Sequence two computations, accumulating traces; errors and panics stop
the sequence. -/
def Conv.bind (m : Conv α) (f : α → Conv β) : Conv β := fun env =>
  match m env with
  | (.ok a, tr) =>
    let r := f a env
    (r.1, tr ++ r.2)
  | (.err e, tr) => (.err e, tr)
  | (.panicked s, tr) => (.panicked s, tr)

instance : Monad Conv where
  pure := Conv.pure
  bind := Conv.bind

/-- Return a typed error, as the Rust code does with `return Err(..)`. -/
def Conv.err (e : ArrowErr) : Conv α := fun _ => (.err e, [])

/-- Abort with a panic, as `expect`/`unwrap` do on failure. -/
def Conv.panicked (msg : String) : Conv α := fun _ => (.panicked msg, [])

/-- Lift an arrow-rs `Result` propagated with the `?` operator. -/
def Conv.ofExcept : Except ArrowErr α → Conv α
  | .ok a => Conv.pure a
  | .error e => Conv.err e

/-! ### Models of the host-side nanoarrow capabilities

Each function below models one R-level helper the Rust code invokes through
`R!`.  The lookup itself is guarded by
`.expect("nanoarrow must be installed")`: when the package is absent the
lookup fails and the expect panics before any call happens, so the trace
stays empty.  Address arguments are modelled as value passing; a failed
export call has its result discarded by the Rust code (`let _ = ...`), which
leaves the destination struct empty. -/

/-- Look up and call a nanoarrow function; panics when nanoarrow is absent. -/
def callNanoarrow (fname : String) : Conv Unit := fun env =>
  if env.nanoarrow then (.ok (), [.nanoarrowCall fname])
  else (.panicked "`nanoarrow` must be installed", [])

/-- Models `allocate_array` in src/to.rs. -/
def allocate_array : Conv Unit := callNanoarrow "nanoarrow_allocate_array"

/-- Models `allocate_array_stream` in src/to.rs. -/
def allocate_array_stream : Conv Unit := callNanoarrow "nanoarrow_allocate_array_stream"

/-- Models `allocate_schema` in src/to.rs. -/
def allocate_schema : Conv Unit := callNanoarrow "nanoarrow_allocate_schema"

/-- Models `move_pointer` in src/to.rs. -/
def move_pointer : Conv Unit := callNanoarrow "nanoarrow_pointer_move"

/-- Models `set_array_schema` in src/to.rs. -/
def set_array_schema : Conv Unit := callNanoarrow "nanoarrow_array_set_schema"

/-- Models `nanoarrow_export` in src/from.rs targeting an empty schema
struct: the schema carried by a `nanoarrow_schema` value is written to the
destination; for any other value the R call fails, the failure is discarded
and the destination stays empty. -/
def nanoarrow_export_schema (robj : Robj) : Conv FFISchema := fun env =>
  if env.nanoarrow then
    (.ok (match robj with
          | .naSchema sch => sch
          | _ => FFISchema.empty),
     [.nanoarrowCall "nanoarrow_pointer_export"])
  else (.panicked "`nanoarrow` must be installed", [])

/-- Models `nanoarrow_export` in src/from.rs targeting an empty array
struct. -/
def nanoarrow_export_array (robj : Robj) : Conv FFIArray := fun env =>
  if env.nanoarrow then
    (.ok (match robj with
          | .naArray arr _ => arr
          | _ => FFIArray.empty),
     [.nanoarrowCall "nanoarrow_pointer_export"])
  else (.panicked "`nanoarrow` must be installed", [])

/-- Models `nanoarrow_export` in src/from.rs targeting an empty stream
struct; `none` stands for the still-empty (released) stream struct. -/
def nanoarrow_export_stream (robj : Robj) :
    Conv (Option (Schema × List (Except ArrowErr RecordBatch))) := fun env =>
  if env.nanoarrow then
    (.ok (match robj with
          | .naStream s items => some (s, items)
          | _ => none),
     [.nanoarrowCall "nanoarrow_pointer_export"])
  else (.panicked "`nanoarrow` must be installed", [])

/-- Models the `R!("nanoarrow::infer_nanoarrow_schema")` call in
`ArrayData::from_arrow_robj`: the lookup is unwrapped (panic when nanoarrow
is absent), and the call fails for a value that is not a nanoarrow array
(panic through the `expect("unable to infer nanoarrow schema")`). -/
def infer_nanoarrow_schema (robj : Robj) : Conv Robj := fun env =>
  if env.nanoarrow then
    match robj with
    | .naArray _ sch => (.ok (.naSchema sch), [.nanoarrowCall "infer_nanoarrow_schema"])
    | _ => (.panicked "unable to infer nanoarrow schema",
            [.nanoarrowCall "infer_nanoarrow_schema"])
  else (.panicked "called `Result::unwrap()` on an `Err` value", [])

/-- Models `robj.dollar("export_to_c")` followed by the call, for the
schema-like arrow package objects (`Field`, `DataType`, `Schema`): the R6
method serializes the value to the given address; a conversion failure is
discarded, leaving the struct empty.  On a value without the method the
`expect` panics. -/
def dollar_export_to_c_schema (robj : Robj) : Conv FFISchema := fun _ =>
  match robj with
  | .arrowField f => (.ok ((exportField f).getD FFISchema.empty), [.methodCall "export_to_c"])
  | .arrowDataType dt => (.ok ((exportDataTypeFFI dt).getD FFISchema.empty), [.methodCall "export_to_c"])
  | .arrowSchema s => (.ok ((exportSchemaFFI s).getD FFISchema.empty), [.methodCall "export_to_c"])
  | _ => (.panicked "export_to_c() method to be available", [])

/-- Models `robj.dollar("export_to_c")` for an arrow `Array` object: writes
the paired array and schema structs. -/
def dollar_export_to_c_array (robj : Robj) : Conv (FFIArray × FFISchema) := fun _ =>
  match robj with
  | .arrowArray a => (.ok (to_ffi a), [.methodCall "export_to_c"])
  | _ => (.panicked "export_to_c() method to be available", [])

/-- Models `robj.dollar("export_to_c")` for an arrow `RecordBatch` object:
the batch crosses as a struct-typed array whose children are the columns,
paired with the schema struct. -/
def dollar_export_to_c_batch (robj : Robj) : Conv (List ArrayData × FFISchema) := fun _ =>
  match robj with
  | .arrowRecordBatch b =>
    (.ok (b.columns, (exportSchemaFFI b.schema).getD FFISchema.empty),
     [.methodCall "export_to_c"])
  | _ => (.panicked "export_to_c() method to be available", [])

/-- Models `ArrowArrayStreamReader::try_new`: rejects a released or empty
stream struct, otherwise fetches the schema once across the C boundary
(failing when the producer schema has no C ABI mapping or does not parse). -/
def tryNewReader :
    Option (Schema × List (Except ArrowErr RecordBatch)) →
      Except ArrowErr ArrowArrayStreamReader
  | none => .error (.cDataInterface "cannot import from a released or empty array stream")
  | some (s, items) =>
    match exportSchemaFFI s with
    | none => .error (.cDataInterface "the stream schema has no C ABI representation")
    | some c =>
      match Schema.try_from c with
      | .error e => .error e
      | .ok s2 => .ok ⟨s2, items⟩

/-! ### src/to.rs — the `ToArrowRobj` and `IntoArrowRobj` implementations -/

/-- Models `impl ToArrowRobj for ArrayData` (src/to.rs lines 101 to 126):
serialize with `to_ffi`, allocate an empty host array and schema, move both
structs in, attach the schema to the array. -/
def ArrayData.to_arrow_robj (a : ArrayData) : Conv Robj := do
  let p := to_ffi a
  allocate_array
  allocate_schema
  move_pointer
  move_pointer
  set_array_schema
  pure (.naArray p.1 p.2)

/-- Models `impl ToArrowRobj for Field` (src/to.rs lines 135 to 149): the
conversion result is unwrapped with `expect("Field is FFI compatible")`,
then an empty host schema is allocated and the struct moved in. -/
def Field.to_arrow_robj (f : Field) : Conv Robj :=
  match exportField f with
  | none => Conv.panicked "Field is FFI compatible"
  | some c => do
    allocate_schema
    move_pointer
    pure (.naSchema c)

/-- Models `impl ToArrowRobj for Schema` (src/to.rs lines 151 to 167), with
`expect("valid Schema")` on the conversion. -/
def Schema.to_arrow_robj (s : Schema) : Conv Robj :=
  match exportSchemaFFI s with
  | none => Conv.panicked "valid Schema"
  | some c => do
    allocate_schema
    move_pointer
    pure (.naSchema c)

/-- Models `impl ToArrowRobj for DataType` (src/to.rs lines 169 to 184),
with `expect("valid Schema")` on the conversion. -/
def DataType.to_arrow_robj (dt : DataType) : Conv Robj :=
  match exportDataTypeFFI dt with
  | none => Conv.panicked "valid Schema"
  | some c => do
    allocate_schema
    move_pointer
    pure (.naSchema c)

/-- Shared tail of the stream exports: wrap a record batch reader in a
stream struct, allocate an empty host stream and move the struct in.  The
producer schema conversion is lazy (performed when the consumer calls
`get_schema`), so the host value carries the native schema and items. -/
def readerIntoArrowRobj (schema : Schema)
    (items : List (Except ArrowErr RecordBatch)) : Conv Robj := do
  allocate_array_stream
  move_pointer
  pure (.naStream schema items)

/-- Models `impl ToArrowRobj for RecordBatch` (src/to.rs lines 186 to 198):
the batch becomes a one-element `RecordBatchIterator` over its own schema. -/
def RecordBatch.to_arrow_robj (b : RecordBatch) : Conv Robj :=
  readerIntoArrowRobj b.schema [.ok b]

/-- Models `impl IntoArrowRobj for Box<dyn RecordBatchReader + Send>`
(src/to.rs lines 252 to 262). -/
def boxedReaderIntoArrowRobj (r : ArrowArrayStreamReader) : Conv Robj :=
  readerIntoArrowRobj r.schema r.items

/-- Models `impl IntoArrowRobj for ArrowArrayStreamReader`
(src/to.rs lines 246 to 250, through `to_arrow_robj_stream_reader`). -/
def ArrowArrayStreamReader.into_arrow_robj (r : ArrowArrayStreamReader) : Conv Robj :=
  boxedReaderIntoArrowRobj r

/-- Models `impl IntoArrowRobj for Vec<RecordBatch>` (src/to.rs lines 264 to
285): an empty vector becomes a `RecordBatchIterator` over a fresh empty
schema; otherwise the schema of the first batch is used and the batches are
wrapped as `Ok` items in order. -/
def vecRecordBatchIntoArrowRobj : List RecordBatch → Conv Robj
  | [] => boxedReaderIntoArrowRobj ⟨⟨[]⟩, []⟩
  | b :: rest => boxedReaderIntoArrowRobj ⟨b.schema, (b :: rest).map Except.ok⟩

/-! ### src/from.rs — the `FromArrowRobj` implementations -/

/-- Models `impl FromArrowRobj for Field` (src/from.rs lines 71 to 107). -/
def Field.from_arrow_robj (robj : Robj) : Conv Field :=
  if robj.inherits "nanoarrow_schema" then do
    let c ← nanoarrow_export_schema robj
    Conv.ofExcept (importField c)
  else if !(robj.inherits "Field") then
    Conv.err (.parseError "did not find a `Field` or `nanoarrow_schema`")
  else do
    let c ← dollar_export_to_c_schema robj
    Conv.ofExcept (importField c)

/-- Models `impl FromArrowRobj for DataType` (src/from.rs lines 109 to 144). -/
def DataType.from_arrow_robj (robj : Robj) : Conv DataType :=
  if robj.inherits "nanoarrow_schema" then do
    let c ← nanoarrow_export_schema robj
    Conv.ofExcept (DataType.try_from c)
  else if !(robj.inherits "DataType") then
    Conv.err (.parseError "did not find a `DataType` or `nanoarrow_schema`")
  else do
    let c ← dollar_export_to_c_schema robj
    Conv.ofExcept (DataType.try_from c)

/-- Models `impl FromArrowRobj for Schema` (src/from.rs lines 146 to 181). -/
def Schema.from_arrow_robj (robj : Robj) : Conv Schema :=
  if robj.inherits "nanoarrow_schema" then do
    let c ← nanoarrow_export_schema robj
    Conv.ofExcept (Schema.try_from c)
  else if !(robj.inherits "Schema") then
    Conv.err (.parseError "did not find a `Schema` or `nanoarrow_schema`")
  else do
    let c ← dollar_export_to_c_schema robj
    Conv.ofExcept (Schema.try_from c)

/-- Models `impl FromArrowRobj for ArrayData` (src/from.rs lines 184 to
229): the nanoarrow branch infers the schema object, exports the array and
schema structs and rebuilds through `from_ffi`; the arrow branch requires
the `Array` class and its `export_to_c` method. -/
def ArrayData.from_arrow_robj (robj : Robj) : Conv ArrayData :=
  if robj.inherits "nanoarrow_array" then do
    let robjSchema ← infer_nanoarrow_schema robj
    let arr ← nanoarrow_export_array robj
    let sch ← nanoarrow_export_schema robjSchema
    Conv.ofExcept (from_ffi arr sch)
  else if !(robj.inherits "Array") then
    Conv.err (.parseError "did not find a `Array`")
  else do
    let p ← dollar_export_to_c_array robj
    Conv.ofExcept (from_ffi p.1 p.2)

/-- Models `impl FromArrowRobj for RecordBatch` (src/from.rs lines 233 to
284): on a `nanoarrow_array_stream` the stream is exported, a reader is
built, and `.map(unwrap).nth(0).unwrap()` takes the first pull — panicking
on an empty stream or an error result; on an arrow `RecordBatch` the batch
crosses as a struct array whose children become the columns. -/
def RecordBatch.from_arrow_robj (robj : Robj) : Conv RecordBatch :=
  if robj.inherits "nanoarrow_array_stream" then do
    let st ← nanoarrow_export_stream robj
    match tryNewReader st with
    | .error e => Conv.err e
    | .ok reader =>
      match reader.items with
      | [] => Conv.panicked "called `Option::unwrap()` on a `None` value"
      | .error _ :: _ => Conv.panicked "called `Result::unwrap()` on an `Err` value"
      | .ok b :: _ => Conv.pure b
  else if !(robj.inherits "RecordBatch") then
    Conv.err (.parseError "did not find a `RecordBatch` or `nanoarrow_array_stream`")
  else do
    let p ← dollar_export_to_c_batch robj
    match Schema.try_from p.2 with
    | .error e => Conv.err e
    | .ok s => Conv.ofExcept (RecordBatch.try_new s p.1)

/-- Models `impl FromArrowRobj for ArrowArrayStreamReader` (src/from.rs
lines 286 to 302). -/
def ArrowArrayStreamReader.from_arrow_robj (robj : Robj) : Conv ArrowArrayStreamReader :=
  if !(robj.inherits "nanoarrow_array_stream") then
    Conv.err (.parseError "did not find `nanoarrow_array_stream`")
  else do
    let st ← nanoarrow_export_stream robj
    Conv.ofExcept (tryNewReader st)

/-! ### Supporting lemmas -/

theorem length_natToLE (k n : Nat) : (natToLE k n).length = k := by
  induction k generalizing n with
  | zero => rfl
  | succ k ih => simp [natToLE, ih]

theorem leToNat_natToLE (k n : Nat) (h : n < 256 ^ k) : leToNat (natToLE k n) = n := by
  induction k generalizing n with
  | zero =>
    simp [natToLE, leToNat]
    simp [pow_zero] at h
    omega
  | succ k ih =>
    have hdiv : n / 256 < 256 ^ k := by
      rw [Nat.div_lt_iff_lt_mul (by norm_num)]
      calc n < 256 ^ (k + 1) := h
        _ = 256 ^ k * 256 := by ring
    simp [natToLE, leToNat, ih (n / 256) hdiv]
    omega

theorem encodeVals_cons (k v : Nat) (vs : List Nat) :
    encodeVals k (v :: vs) = natToLE k v ++ encodeVals k vs := by
  simp [encodeVals]

theorem length_encodeVals (k : Nat) (vs : List Nat) :
    (encodeVals k vs).length = vs.length * k := by
  induction vs with
  | nil => simp [encodeVals]
  | cons v vs ih =>
    rw [encodeVals_cons, List.length_append, length_natToLE, ih]
    simp [Nat.succ_mul]
    omega

theorem decodeVals_encodeVals (k : Nat) (vs : List Nat)
    (h : ∀ v ∈ vs, v < 256 ^ k) :
    decodeVals k vs.length (encodeVals k vs) = vs := by
  induction vs with
  | nil => rfl
  | cons v vs ih =>
    rw [encodeVals_cons, List.length_cons]
    show leToNat ((natToLE k v ++ encodeVals k vs).take k) ::
        decodeVals k vs.length ((natToLE k v ++ encodeVals k vs).drop k) = v :: vs
    rw [List.take_left' (length_natToLE k v), List.drop_left' (length_natToLE k v)]
    rw [leToNat_natToLE k v (h v (by simp))]
    rw [ih (fun x hx => h x (by simp [hx]))]

theorem bitsOfByte_zero (k : Nat) : bitsOfByte k 0 = List.replicate k false := by
  induction k with
  | zero => rfl
  | succ k ih => simp [bitsOfByte, ih, List.replicate]

theorem length_bitsOfByte (k n : Nat) : (bitsOfByte k n).length = k := by
  induction k generalizing n with
  | zero => rfl
  | succ k ih => simp [bitsOfByte, ih]

theorem bitsOfByte_bitsToByte (bs : List Bool) (k : Nat) (h : bs.length ≤ k) :
    bitsOfByte k (bitsToByte bs) = bs ++ List.replicate (k - bs.length) false := by
  induction bs generalizing k with
  | nil => simp [bitsToByte, bitsOfByte_zero]
  | cons b bs ih =>
    cases k with
    | zero => simp at h
    | succ k =>
      have hmod : decide (bitsToByte (b :: bs) % 2 = 1) = b := by
        cases b <;> simp [bitsToByte] <;> try omega
      have hdiv : bitsToByte (b :: bs) / 2 = bitsToByte bs := by
        cases b <;> simp [bitsToByte] <;> try omega
      have hlen : bs.length ≤ k := by simpa using h
      show decide (bitsToByte (b :: bs) % 2 = 1) :: bitsOfByte k (bitsToByte (b :: bs) / 2) =
        (b :: bs) ++ List.replicate (k + 1 - (b :: bs).length) false
      rw [hmod, hdiv, ih k hlen]
      have hc : k + 1 - (b :: bs).length = k - bs.length := by
        simp only [List.length_cons]
        omega
      rw [hc]
      rfl

theorem packBits_flatten_aux (n : Nat) (bs : List Bool) (hn : bs.length ≤ n) :
    ∃ m, ((packBits bs).map (bitsOfByte 8)).flatten = bs ++ List.replicate m false := by
  induction n generalizing bs with
  | zero =>
    have : bs = [] := by
      cases bs with
      | nil => rfl
      | cons x xs => simp at hn
    subst this
    exact ⟨0, by simp [packBits]⟩
  | succ n ih =>
    by_cases h : bs = []
    · subst h
      exact ⟨0, by simp [packBits]⟩
    · have hpos : 0 < bs.length := by
        cases bs with
        | nil => exact absurd rfl h
        | cons x xs => simp
      have hrec : (bs.drop 8).length ≤ n := by
        simp [List.length_drop]
        omega
      obtain ⟨m, hm⟩ := ih (bs.drop 8) hrec
      refine ⟨8 - (bs.take 8).length + m, ?_⟩
      rw [packBits, dif_neg h]
      simp only [List.map_cons, List.flatten_cons]
      rw [bitsOfByte_bitsToByte (bs.take 8) 8 (List.length_take_le 8 bs), hm]
      by_cases hlen : bs.length ≤ 8
      · have hd : bs.drop 8 = [] := by
          apply List.eq_nil_of_length_eq_zero
          simp [List.length_drop]
          omega
        have ht : bs.take 8 = bs := List.take_of_length_le hlen
        rw [hd, ht, List.replicate_add]
        simp [List.append_assoc]
      · have ht8 : (bs.take 8).length = 8 := by
          simp [List.length_take]
          omega
        rw [ht8]
        have hz : (8 : Nat) - 8 = 0 := by omega
        rw [hz]
        simp only [List.replicate_zero, List.append_nil, Nat.zero_add]
        rw [← List.append_assoc, List.take_append_drop]

theorem unpackBits_packBits (bs : List Bool) :
    unpackBits (packBits bs) bs.length = bs := by
  obtain ⟨m, hm⟩ := packBits_flatten_aux bs.length bs (le_refl _)
  rw [unpackBits, hm]
  exact List.take_left' rfl

theorem length_packBits_ge (bs : List Bool) : bs.length ≤ 8 * (packBits bs).length := by
  obtain ⟨m, hm⟩ := packBits_flatten_aux bs.length bs (le_refl _)
  have h1 : (((packBits bs).map (bitsOfByte 8)).flatten).length = bs.length + m := by
    rw [hm]; simp
  have h2 : ∀ l : List Nat, ((l.map (bitsOfByte 8)).flatten).length = 8 * l.length := by
    intro l
    induction l with
    | nil => rfl
    | cons x xs ihl =>
      simp only [List.map_cons, List.flatten_cons, List.length_append, ihl,
        length_bitsOfByte, List.length_cons]
      omega
  have := h2 (packBits bs)
  omega

mutual

/-- Round trip of a single field through the C schema struct. -/
theorem importField_exportField :
    ∀ (f : Field) (c : FFISchema), exportField f = some c → importField c = .ok f
  | .mk n dt nb, c, h => by
    cases dt with
    | boolean =>
      simp [exportField, DataType.formatStr, exportChildren] at h
      subst h
      rfl
    | prim p =>
      simp [exportField, DataType.formatStr, exportChildren] at h
      subst h
      cases p <;> rfl
    | utf8 =>
      simp [exportField, DataType.formatStr, exportChildren] at h
      subst h
      rfl
    | binary =>
      simp [exportField, DataType.formatStr, exportChildren] at h
      subst h
      rfl
    | struct fs =>
      simp only [exportField, DataType.formatStr, exportChildren] at h
      cases hcs : exportFieldList fs with
      | none => rw [hcs] at h; exact absurd h (by simp)
      | some cs =>
        rw [hcs] at h
        simp at h
        subst h
        have := importFieldList_exportFieldList fs cs hcs
        simp [importField, this]
    | list f0 =>
      simp only [exportField, DataType.formatStr, exportChildren] at h
      cases hc0 : exportField f0 with
      | none => rw [hc0] at h; exact absurd h (by simp)
      | some c0 =>
        rw [hc0] at h
        simp at h
        subst h
        have := importField_exportField f0 c0 hc0
        simp [importField, this]
    | runEndEncoded r v =>
      simp [exportField, DataType.formatStr] at h

/-- Round trip of a field list through child schema structs. -/
theorem importFieldList_exportFieldList :
    ∀ (fs : List Field) (cs : List FFISchema),
      exportFieldList fs = some cs → importFieldList cs = .ok fs
  | [], cs, h => by
    simp [exportFieldList] at h
    subst h
    rfl
  | f :: fs, cs, h => by
    simp only [exportFieldList] at h
    cases hc : exportField f with
    | none => rw [hc] at h; exact absurd h (by simp)
    | some c =>
      rw [hc] at h
      cases hcs : exportFieldList fs with
      | none => rw [hcs] at h; exact absurd h (by simp)
      | some cs0 =>
        rw [hcs] at h
        simp at h
        subst h
        have h1 := importField_exportField f c hc
        have h2 := importFieldList_exportFieldList fs cs0 hcs
        simp [importFieldList, h1, h2]

end

/-- Round trip of a whole schema through the C schema struct. -/
theorem Schema.try_from_exportSchemaFFI (s : Schema) (c : FFISchema)
    (h : exportSchemaFFI s = some c) : Schema.try_from c = .ok s := by
  have := importField_exportField (.mk "" (.struct s.fields) false) c h
  simp [Schema.try_from, this, Field.dataType]

theorem primOfFormat_formatStr (p : PrimType) :
    primOfFormat p.formatStr = some (.prim p) := by
  cases p <;> rfl

theorem importField_primSchema (p : PrimType) :
    importField (.mk p.formatStr "" true []) = .ok (.mk "" (.prim p) true) := by
  cases p <;> rfl

/-- Round trip of well-formed primitive array data through the paired C
structs: `from_ffi` rebuilds exactly the exported array. -/
theorem from_ffi_to_ffi (a : ArrayData) (h : a.WF) :
    from_ffi (to_ffi a).1 (to_ffi a).2 = .ok a := by
  obtain ⟨hvlen, hnul, hbound⟩ := h
  rw [from_ffi]
  simp only [to_ffi, importField_primSchema a.ptype]
  simp only [Field.dataType, primTypeOf]
  have hdata : (encodeVals a.ptype.byteWidth a.values).length = a.len * a.ptype.byteWidth := by
    rw [length_encodeVals, hvlen]
  have hnotsmall : ¬ ((encodeVals a.ptype.byteWidth a.values).length <
      a.len * a.ptype.byteWidth) := by
    rw [hdata]
    omega
  simp only [hnotsmall, if_false]
  have hdecode : decodeVals a.ptype.byteWidth a.len (encodeVals a.ptype.byteWidth a.values)
      = a.values := by
    rw [← hvlen]
    exact decodeVals_encodeVals _ _ hbound
  cases hn : a.nulls with
  | none =>
    simp only [hn, Option.map]
    rw [hdecode, ← hn]
  | some v =>
    have hv : v.length = a.len := by rw [hn] at hnul; exact hnul
    simp only [hn, Option.map]
    have hbig : ¬ (8 * (packBits v).length < a.len) := by
      have := length_packBits_ge v
      omega
    simp only [hbig, if_false]
    rw [hdecode, ← hv, unpackBits_packBits, hv, ← hn]

theorem Conv.bind_apply (m : Conv α) (f : α → Conv β) (env : HostEnv) :
    Conv.bind m f env =
      match m env with
      | (.ok a, tr) => ((f a env).1, tr ++ (f a env).2)
      | (.err e, tr) => (.err e, tr)
      | (.panicked s, tr) => (.panicked s, tr) := by
  rw [Conv.bind]

/-! ### Bridge lemmas for evaluating conversion computations -/

theorem conv_bind_eq {α β : Type} :
    (Bind.bind : Conv α → (α → Conv β) → Conv β) = Conv.bind := rfl

theorem conv_pure_eq {α : Type} : (Pure.pure : α → Conv α) = Conv.pure := rfl

theorem pullN_all (S : Schema) (items : List (Except ArrowErr RecordBatch)) :
    ArrowArrayStreamReader.pullN ⟨S, items⟩ items.length =
      (items.map some, ⟨S, []⟩) := by
  induction items with
  | nil => rfl
  | cons x xs ih =>
    simp only [List.length_cons, ArrowArrayStreamReader.pullN,
      ArrowArrayStreamReader.next, List.map_cons]
    rw [ih]

theorem pullN_exhausted (S : Schema) (k : Nat) :
    ArrowArrayStreamReader.pullN ⟨S, []⟩ k = (List.replicate k none, ⟨S, []⟩) := by
  induction k with
  | zero => rfl
  | succ k ih =>
    simp only [ArrowArrayStreamReader.pullN, ArrowArrayStreamReader.next, ih,
      List.replicate]

/-! ### Claim theorems -/

/-- C1.  For every supported primitive type and every well-formed native
array of it, including arrays with null entries, exporting through
`ArrayData::to_arrow_robj` and importing back through
`ArrayData::from_arrow_robj` reconstructs exactly the original array —
same length, same validity pattern, same element values — when the
nanoarrow package is available. -/
theorem c1_primitive_array_roundtrip (env : HostEnv) (a : ArrayData)
    (henv : env.nanoarrow = true) (hw : a.WF) :
    ArrayData.to_arrow_robj a env =
      (.ok (.naArray (to_ffi a).1 (to_ffi a).2),
       [.nanoarrowCall "nanoarrow_allocate_array",
        .nanoarrowCall "nanoarrow_allocate_schema",
        .nanoarrowCall "nanoarrow_pointer_move",
        .nanoarrowCall "nanoarrow_pointer_move",
        .nanoarrowCall "nanoarrow_array_set_schema"]) ∧
    ArrayData.from_arrow_robj (.naArray (to_ffi a).1 (to_ffi a).2) env =
      (.ok a,
       [.nanoarrowCall "infer_nanoarrow_schema",
        .nanoarrowCall "nanoarrow_pointer_export",
        .nanoarrowCall "nanoarrow_pointer_export"]) := by
  obtain ⟨nano⟩ := env
  simp only [HostEnv.nanoarrow] at henv
  subst henv
  constructor
  · rfl
  · have hff := from_ffi_to_ffi a hw
    have key : ArrayData.from_arrow_robj (.naArray (to_ffi a).1 (to_ffi a).2) ⟨true⟩ =
        ((Conv.ofExcept (from_ffi (to_ffi a).1 (to_ffi a).2) ⟨true⟩).1,
         .nanoarrowCall "infer_nanoarrow_schema" ::
         .nanoarrowCall "nanoarrow_pointer_export" ::
         .nanoarrowCall "nanoarrow_pointer_export" ::
         (Conv.ofExcept (from_ffi (to_ffi a).1 (to_ffi a).2) ⟨true⟩).2) := rfl
    rw [key, hff]
    rfl

/-- C1 witness: the concrete scenario of a three-element int32 array with
values 1, null, 3. -/
theorem c1_primitive_array_roundtrip_witness :
    (⟨true⟩ : HostEnv).nanoarrow = true ∧
    (⟨.int32, 3, some [true, false, true], [1, 0, 3]⟩ : ArrayData).WF ∧
    (ArrayData.to_arrow_robj ⟨.int32, 3, some [true, false, true], [1, 0, 3]⟩ ⟨true⟩ =
      (.ok (.naArray (to_ffi ⟨.int32, 3, some [true, false, true], [1, 0, 3]⟩).1
                     (to_ffi ⟨.int32, 3, some [true, false, true], [1, 0, 3]⟩).2),
       [.nanoarrowCall "nanoarrow_allocate_array",
        .nanoarrowCall "nanoarrow_allocate_schema",
        .nanoarrowCall "nanoarrow_pointer_move",
        .nanoarrowCall "nanoarrow_pointer_move",
        .nanoarrowCall "nanoarrow_array_set_schema"]) ∧
     ArrayData.from_arrow_robj
        (.naArray (to_ffi ⟨.int32, 3, some [true, false, true], [1, 0, 3]⟩).1
                  (to_ffi ⟨.int32, 3, some [true, false, true], [1, 0, 3]⟩).2) ⟨true⟩ =
      (.ok ⟨.int32, 3, some [true, false, true], [1, 0, 3]⟩,
       [.nanoarrowCall "infer_nanoarrow_schema",
        .nanoarrowCall "nanoarrow_pointer_export",
        .nanoarrowCall "nanoarrow_pointer_export"])) :=
  ⟨rfl, ⟨rfl, rfl, by decide⟩,
   c1_primitive_array_roundtrip ⟨true⟩ _ rfl ⟨rfl, rfl, by decide⟩⟩

/-- C2.  For every schema with a C ABI format mapping, including nested
struct and list types, exporting through `Schema::to_arrow_robj` and
importing back through `Schema::from_arrow_robj` yields a schema equal to
the original: same format strings, same nullability, and recursively equal
children in declaration order. -/
theorem c2_schema_roundtrip (env : HostEnv) (s : Schema)
    (henv : env.nanoarrow = true) (hs : (exportSchemaFFI s).isSome = true) :
    ∃ c : FFISchema,
      exportSchemaFFI s = some c ∧
      Schema.to_arrow_robj s env =
        (.ok (.naSchema c),
         [.nanoarrowCall "nanoarrow_allocate_schema",
          .nanoarrowCall "nanoarrow_pointer_move"]) ∧
      Schema.from_arrow_robj (.naSchema c) env =
        (.ok s, [.nanoarrowCall "nanoarrow_pointer_export"]) := by
  obtain ⟨nano⟩ := env
  simp only [HostEnv.nanoarrow] at henv
  subst henv
  obtain ⟨c, hc⟩ := Option.isSome_iff_exists.mp hs
  refine ⟨c, hc, ?_, ?_⟩
  · simp only [Schema.to_arrow_robj, hc]
    rfl
  · have ht := Schema.try_from_exportSchemaFFI s c hc
    have key : Schema.from_arrow_robj (.naSchema c) ⟨true⟩ =
        ((Conv.ofExcept (Schema.try_from c) ⟨true⟩).1,
         .nanoarrowCall "nanoarrow_pointer_export" ::
         (Conv.ofExcept (Schema.try_from c) ⟨true⟩).2) := rfl
    rw [key, ht]
    rfl

/-- C2 witness: a nested schema with a struct field and a list field. -/
theorem c2_schema_roundtrip_witness :
    (⟨true⟩ : HostEnv).nanoarrow = true ∧
    (exportSchemaFFI ⟨[.mk "a" (.prim .int32) true,
       .mk "s" (.struct [.mk "x" .utf8 false]) true,
       .mk "l" (.list (.mk "item" (.prim .int64) true)) false]⟩).isSome = true ∧
    (∃ c : FFISchema,
      exportSchemaFFI ⟨[.mk "a" (.prim .int32) true,
        .mk "s" (.struct [.mk "x" .utf8 false]) true,
        .mk "l" (.list (.mk "item" (.prim .int64) true)) false]⟩ = some c ∧
      Schema.to_arrow_robj ⟨[.mk "a" (.prim .int32) true,
        .mk "s" (.struct [.mk "x" .utf8 false]) true,
        .mk "l" (.list (.mk "item" (.prim .int64) true)) false]⟩ ⟨true⟩ =
        (.ok (.naSchema c),
         [.nanoarrowCall "nanoarrow_allocate_schema",
          .nanoarrowCall "nanoarrow_pointer_move"]) ∧
      Schema.from_arrow_robj (.naSchema c) ⟨true⟩ =
        (.ok ⟨[.mk "a" (.prim .int32) true,
          .mk "s" (.struct [.mk "x" .utf8 false]) true,
          .mk "l" (.list (.mk "item" (.prim .int64) true)) false]⟩,
         [.nanoarrowCall "nanoarrow_pointer_export"])) :=
  ⟨rfl, rfl, c2_schema_roundtrip ⟨true⟩ _ rfl rfl⟩

/-- C3.  For every host value whose class attribute contains none of the
recognized wrapper classes, every import entry point returns the
unrecognized-capability parse error naming an expected class, with an empty
effect trace: no host capability is invoked, so no pointer is dereferenced
or written before classification. -/
theorem c3_unrecognized_capability_no_pointer_use (env : HostEnv) (cs : List String)
    (h1 : cs.contains "nanoarrow_schema" = false)
    (h2 : cs.contains "nanoarrow_array" = false)
    (h3 : cs.contains "nanoarrow_array_stream" = false)
    (h4 : cs.contains "Field" = false)
    (h5 : cs.contains "DataType" = false)
    (h6 : cs.contains "Schema" = false)
    (h7 : cs.contains "Array" = false)
    (h8 : cs.contains "RecordBatch" = false) :
    Field.from_arrow_robj (.foreign cs) env =
      (.err (.parseError "did not find a `Field` or `nanoarrow_schema`"), []) ∧
    DataType.from_arrow_robj (.foreign cs) env =
      (.err (.parseError "did not find a `DataType` or `nanoarrow_schema`"), []) ∧
    Schema.from_arrow_robj (.foreign cs) env =
      (.err (.parseError "did not find a `Schema` or `nanoarrow_schema`"), []) ∧
    ArrayData.from_arrow_robj (.foreign cs) env =
      (.err (.parseError "did not find a `Array`"), []) ∧
    RecordBatch.from_arrow_robj (.foreign cs) env =
      (.err (.parseError "did not find a `RecordBatch` or `nanoarrow_array_stream`"), []) ∧
    ArrowArrayStreamReader.from_arrow_robj (.foreign cs) env =
      (.err (.parseError "did not find `nanoarrow_array_stream`"), []) := by
  refine ⟨?_, ?_, ?_, ?_, ?_, ?_⟩
  · simp only [Field.from_arrow_robj, Robj.inherits, Robj.classes, h1, h4,
      Bool.false_eq_true, if_false, Bool.not_false, if_true]
    rfl
  · simp only [DataType.from_arrow_robj, Robj.inherits, Robj.classes, h1, h5,
      Bool.false_eq_true, if_false, Bool.not_false, if_true]
    rfl
  · simp only [Schema.from_arrow_robj, Robj.inherits, Robj.classes, h1, h6,
      Bool.false_eq_true, if_false, Bool.not_false, if_true]
    rfl
  · simp only [ArrayData.from_arrow_robj, Robj.inherits, Robj.classes, h2, h7,
      Bool.false_eq_true, if_false, Bool.not_false, if_true]
    rfl
  · simp only [RecordBatch.from_arrow_robj, Robj.inherits, Robj.classes, h3, h8,
      Bool.false_eq_true, if_false, Bool.not_false, if_true]
    rfl
  · simp only [ArrowArrayStreamReader.from_arrow_robj, Robj.inherits, Robj.classes, h3,
      Bool.false_eq_true, if_false, Bool.not_false, if_true]
    rfl

/-- C3 witness: an unrelated data.frame value. -/
theorem c3_unrecognized_capability_no_pointer_use_witness :
    (["data.frame"].contains "nanoarrow_schema" = false) ∧
    (["data.frame"].contains "Field" = false) ∧
    (Field.from_arrow_robj (.foreign ["data.frame"]) ⟨true⟩ =
      (.err (.parseError "did not find a `Field` or `nanoarrow_schema`"), []) ∧
     DataType.from_arrow_robj (.foreign ["data.frame"]) ⟨true⟩ =
      (.err (.parseError "did not find a `DataType` or `nanoarrow_schema`"), []) ∧
     Schema.from_arrow_robj (.foreign ["data.frame"]) ⟨true⟩ =
      (.err (.parseError "did not find a `Schema` or `nanoarrow_schema`"), []) ∧
     ArrayData.from_arrow_robj (.foreign ["data.frame"]) ⟨true⟩ =
      (.err (.parseError "did not find a `Array`"), []) ∧
     RecordBatch.from_arrow_robj (.foreign ["data.frame"]) ⟨true⟩ =
      (.err (.parseError "did not find a `RecordBatch` or `nanoarrow_array_stream`"), []) ∧
     ArrowArrayStreamReader.from_arrow_robj (.foreign ["data.frame"]) ⟨true⟩ =
      (.err (.parseError "did not find `nanoarrow_array_stream`"), [])) :=
  ⟨rfl, rfl,
   c3_unrecognized_capability_no_pointer_use ⟨true⟩ ["data.frame"]
     rfl rfl rfl rfl rfl rfl rfl rfl⟩

/-- C4.  On a recognized batch stream, `RecordBatch::from_arrow_robj`
returns the first successfully produced batch of the stream; the result is
the same for every possible remainder of the stream, so all remaining
batches are silently unobserved — neither appended to the result nor
reported as an error. -/
theorem c4_single_batch_pulls_first_only (env : HostEnv) (S : Schema)
    (b : RecordBatch) (rest : List (Except ArrowErr RecordBatch))
    (henv : env.nanoarrow = true) (hs : (exportSchemaFFI S).isSome = true) :
    RecordBatch.from_arrow_robj (.naStream S (.ok b :: rest)) env =
      (.ok b, [.nanoarrowCall "nanoarrow_pointer_export"]) := by
  obtain ⟨nano⟩ := env
  simp only [HostEnv.nanoarrow] at henv
  subst henv
  obtain ⟨c, hc⟩ := Option.isSome_iff_exists.mp hs
  have ht := Schema.try_from_exportSchemaFFI S c hc
  have hr : tryNewReader (some (S, .ok b :: rest)) = .ok ⟨S, .ok b :: rest⟩ := by
    simp [tryNewReader, hc, ht]
  have hin : Robj.inherits (.naStream S (.ok b :: rest)) "nanoarrow_array_stream" = true := rfl
  have he : nanoarrow_export_stream (.naStream S (.ok b :: rest)) ⟨true⟩ =
      (.ok (some (S, .ok b :: rest)), [.nanoarrowCall "nanoarrow_pointer_export"]) := rfl
  simp only [RecordBatch.from_arrow_robj, hin, if_true, conv_bind_eq]
  rw [Conv.bind, he]
  simp only [hr]
  rfl

/-- C4 witness: a two-batch stream returns only the first batch. -/
theorem c4_single_batch_pulls_first_only_witness :
    (⟨true⟩ : HostEnv).nanoarrow = true ∧
    (exportSchemaFFI ⟨[.mk "id" (.prim .int32) false]⟩).isSome = true ∧
    RecordBatch.from_arrow_robj
      (.naStream ⟨[.mk "id" (.prim .int32) false]⟩
        [.ok ⟨⟨[.mk "id" (.prim .int32) false]⟩, [⟨.int32, 5, none, [1, 2, 3, 4, 5]⟩]⟩,
         .ok ⟨⟨[.mk "id" (.prim .int32) false]⟩, [⟨.int32, 2, none, [9, 9]⟩]⟩]) ⟨true⟩ =
      (.ok ⟨⟨[.mk "id" (.prim .int32) false]⟩, [⟨.int32, 5, none, [1, 2, 3, 4, 5]⟩]⟩,
       [.nanoarrowCall "nanoarrow_pointer_export"]) :=
  ⟨rfl, rfl,
   c4_single_batch_pulls_first_only ⟨true⟩ ⟨[.mk "id" (.prim .int32) false]⟩
     ⟨⟨[.mk "id" (.prim .int32) false]⟩, [⟨.int32, 5, none, [1, 2, 3, 4, 5]⟩]⟩
     [.ok ⟨⟨[.mk "id" (.prim .int32) false]⟩, [⟨.int32, 2, none, [9, 9]⟩]⟩] rfl rfl⟩

/-- C5.  A producer of a finite sequence of N batches, exported as a host
stream and imported back through `ArrowArrayStreamReader::from_arrow_robj`,
yields exactly the N batches from successive `next()` calls, then the end
sentinel, and every further call keeps yielding the end sentinel with the
reader state unchanged. -/
theorem c5_stream_yields_n_then_sentinel (env : HostEnv) (S : Schema)
    (bs : List RecordBatch)
    (henv : env.nanoarrow = true) (hs : (exportSchemaFFI S).isSome = true) :
    boxedReaderIntoArrowRobj ⟨S, bs.map .ok⟩ env =
      (.ok (.naStream S (bs.map .ok)),
       [.nanoarrowCall "nanoarrow_allocate_array_stream",
        .nanoarrowCall "nanoarrow_pointer_move"]) ∧
    ArrowArrayStreamReader.from_arrow_robj (.naStream S (bs.map .ok)) env =
      (.ok ⟨S, bs.map .ok⟩, [.nanoarrowCall "nanoarrow_pointer_export"]) ∧
    ArrowArrayStreamReader.pullN ⟨S, bs.map .ok⟩ bs.length =
      (bs.map (fun b => some (.ok b)), ⟨S, []⟩) ∧
    ArrowArrayStreamReader.next ⟨S, []⟩ = (none, ⟨S, []⟩) ∧
    (∀ k, ArrowArrayStreamReader.pullN ⟨S, []⟩ k = (List.replicate k none, ⟨S, []⟩)) := by
  obtain ⟨nano⟩ := env
  simp only [HostEnv.nanoarrow] at henv
  subst henv
  obtain ⟨c, hc⟩ := Option.isSome_iff_exists.mp hs
  have ht := Schema.try_from_exportSchemaFFI S c hc
  have hr : tryNewReader (some (S, bs.map .ok)) = .ok ⟨S, bs.map .ok⟩ := by
    simp [tryNewReader, hc, ht]
  refine ⟨rfl, ?_, ?_, rfl, pullN_exhausted S⟩
  · have key : ArrowArrayStreamReader.from_arrow_robj (.naStream S (bs.map .ok)) ⟨true⟩ =
        ((Conv.ofExcept (tryNewReader (some (S, bs.map .ok))) ⟨true⟩).1,
         .nanoarrowCall "nanoarrow_pointer_export" ::
         (Conv.ofExcept (tryNewReader (some (S, bs.map .ok))) ⟨true⟩).2) := rfl
    rw [key, hr]
    rfl
  · have := pullN_all S (bs.map .ok)
    rw [List.length_map] at this
    rw [this, List.map_map]
    rfl

/-- C5 witness: a two-batch producer yields two batches, then the sentinel
twice. -/
theorem c5_stream_yields_n_then_sentinel_witness :
    (⟨true⟩ : HostEnv).nanoarrow = true ∧
    (exportSchemaFFI ⟨[.mk "id" (.prim .int32) false]⟩).isSome = true ∧
    (boxedReaderIntoArrowRobj
        ⟨⟨[.mk "id" (.prim .int32) false]⟩,
          [⟨⟨[.mk "id" (.prim .int32) false]⟩, [⟨.int32, 5, none, [1, 2, 3, 4, 5]⟩]⟩,
           ⟨⟨[.mk "id" (.prim .int32) false]⟩, [⟨.int32, 2, none, [9, 9]⟩]⟩].map .ok⟩ ⟨true⟩ =
      (.ok (.naStream ⟨[.mk "id" (.prim .int32) false]⟩
         ([⟨⟨[.mk "id" (.prim .int32) false]⟩, [⟨.int32, 5, none, [1, 2, 3, 4, 5]⟩]⟩,
           ⟨⟨[.mk "id" (.prim .int32) false]⟩, [⟨.int32, 2, none, [9, 9]⟩]⟩].map .ok)),
       [.nanoarrowCall "nanoarrow_allocate_array_stream",
        .nanoarrowCall "nanoarrow_pointer_move"]) ∧
     ArrowArrayStreamReader.from_arrow_robj
        (.naStream ⟨[.mk "id" (.prim .int32) false]⟩
          ([⟨⟨[.mk "id" (.prim .int32) false]⟩, [⟨.int32, 5, none, [1, 2, 3, 4, 5]⟩]⟩,
            ⟨⟨[.mk "id" (.prim .int32) false]⟩, [⟨.int32, 2, none, [9, 9]⟩]⟩].map .ok)) ⟨true⟩ =
      (.ok ⟨⟨[.mk "id" (.prim .int32) false]⟩,
         [⟨⟨[.mk "id" (.prim .int32) false]⟩, [⟨.int32, 5, none, [1, 2, 3, 4, 5]⟩]⟩,
          ⟨⟨[.mk "id" (.prim .int32) false]⟩, [⟨.int32, 2, none, [9, 9]⟩]⟩].map .ok⟩,
       [.nanoarrowCall "nanoarrow_pointer_export"]) ∧
     ArrowArrayStreamReader.pullN
        ⟨⟨[.mk "id" (.prim .int32) false]⟩,
          [⟨⟨[.mk "id" (.prim .int32) false]⟩, [⟨.int32, 5, none, [1, 2, 3, 4, 5]⟩]⟩,
           ⟨⟨[.mk "id" (.prim .int32) false]⟩, [⟨.int32, 2, none, [9, 9]⟩]⟩].map .ok⟩
        ([⟨⟨[.mk "id" (.prim .int32) false]⟩, [⟨.int32, 5, none, [1, 2, 3, 4, 5]⟩]⟩,
          ⟨⟨[.mk "id" (.prim .int32) false]⟩, [⟨.int32, 2, none, [9, 9]⟩]⟩] :
            List RecordBatch).length =
      ([⟨⟨[.mk "id" (.prim .int32) false]⟩, [⟨.int32, 5, none, [1, 2, 3, 4, 5]⟩]⟩,
        ⟨⟨[.mk "id" (.prim .int32) false]⟩, [⟨.int32, 2, none, [9, 9]⟩]⟩].map
          (fun b => some (.ok b)),
       ⟨⟨[.mk "id" (.prim .int32) false]⟩, []⟩) ∧
     ArrowArrayStreamReader.next ⟨⟨[.mk "id" (.prim .int32) false]⟩, []⟩ =
      (none, ⟨⟨[.mk "id" (.prim .int32) false]⟩, []⟩) ∧
     (∀ k, ArrowArrayStreamReader.pullN ⟨⟨[.mk "id" (.prim .int32) false]⟩, []⟩ k =
      (List.replicate k none, ⟨⟨[.mk "id" (.prim .int32) false]⟩, []⟩))) :=
  ⟨rfl, rfl,
   c5_stream_yields_n_then_sentinel ⟨true⟩ ⟨[.mk "id" (.prim .int32) false]⟩
     [⟨⟨[.mk "id" (.prim .int32) false]⟩, [⟨.int32, 5, none, [1, 2, 3, 4, 5]⟩]⟩,
      ⟨⟨[.mk "id" (.prim .int32) false]⟩, [⟨.int32, 2, none, [9, 9]⟩]⟩] rfl rfl⟩

/-- C6 counterexample.  Exporting a data type with no C ABI format string
(a run-end encoded type) through `DataType::to_arrow_robj` does not return
a typed error to the caller: the conversion error is unwrapped by
`expect("valid Schema")`, so the call panics. -/
theorem c6_export_unsupported_counterexample :
    DataType.to_arrow_robj
      (.runEndEncoded (.mk "run_ends" (.prim .int32) false)
                      (.mk "values" (.prim .int64) true)) ⟨true⟩ =
      (.panicked "valid Schema", []) ∧
    (DataType.to_arrow_robj
      (.runEndEncoded (.mk "run_ends" (.prim .int32) false)
                      (.mk "values" (.prim .int64) true)) ⟨true⟩).1.isTypedErr = false :=
  ⟨rfl, rfl⟩

/-- C6 amended.  For every field, schema or data type with no C ABI format
string mapping, the export operation fails by panicking through the
`expect` on the conversion result — with the messages of src/to.rs — before
any host call is made; no typed error value is returned to the caller. -/
theorem c6_export_unsupported_panics (env : HostEnv)
    (f : Field) (s : Schema) (dt : DataType)
    (hf : exportField f = none) (hs : exportSchemaFFI s = none)
    (hdt : exportDataTypeFFI dt = none) :
    Field.to_arrow_robj f env = (.panicked "Field is FFI compatible", []) ∧
    Schema.to_arrow_robj s env = (.panicked "valid Schema", []) ∧
    DataType.to_arrow_robj dt env = (.panicked "valid Schema", []) := by
  refine ⟨?_, ?_, ?_⟩
  · simp only [Field.to_arrow_robj, hf]
    rfl
  · simp only [Schema.to_arrow_robj, hs]
    rfl
  · simp only [DataType.to_arrow_robj, hdt]
    rfl

/-- C6 amended witness: run-end encoded inputs for all three export entry
points. -/
theorem c6_export_unsupported_panics_witness :
    exportField (.mk "r" (.runEndEncoded (.mk "run_ends" (.prim .int32) false)
      (.mk "values" (.prim .int64) true)) true) = none ∧
    exportSchemaFFI ⟨[.mk "r" (.runEndEncoded (.mk "run_ends" (.prim .int32) false)
      (.mk "values" (.prim .int64) true)) true]⟩ = none ∧
    exportDataTypeFFI (.runEndEncoded (.mk "run_ends" (.prim .int32) false)
      (.mk "values" (.prim .int64) true)) = none ∧
    (Field.to_arrow_robj (.mk "r" (.runEndEncoded (.mk "run_ends" (.prim .int32) false)
        (.mk "values" (.prim .int64) true)) true) ⟨true⟩ =
      (.panicked "Field is FFI compatible", []) ∧
     Schema.to_arrow_robj ⟨[.mk "r" (.runEndEncoded (.mk "run_ends" (.prim .int32) false)
        (.mk "values" (.prim .int64) true)) true]⟩ ⟨true⟩ =
      (.panicked "valid Schema", []) ∧
     DataType.to_arrow_robj (.runEndEncoded (.mk "run_ends" (.prim .int32) false)
        (.mk "values" (.prim .int64) true)) ⟨true⟩ =
      (.panicked "valid Schema", [])) :=
  ⟨rfl, rfl, rfl,
   c6_export_unsupported_panics ⟨true⟩ _ _ _ rfl rfl rfl⟩

/-- C7 counterexample.  With the nanoarrow package absent, exporting a
perfectly supported array does not return a typed error to the caller: the
failed function lookup is unwrapped by
`expect("nanoarrow must be installed")`, so the call panics. -/
theorem c7_missing_nanoarrow_counterexample :
    ArrayData.to_arrow_robj ⟨.int32, 3, some [true, false, true], [1, 0, 3]⟩ ⟨false⟩ =
      (.panicked "`nanoarrow` must be installed", []) ∧
    (ArrayData.to_arrow_robj ⟨.int32, 3, some [true, false, true], [1, 0, 3]⟩
      ⟨false⟩).1.isTypedErr = false :=
  ⟨rfl, rfl⟩

/-- C7 amended.  When a required nanoarrow helper is absent the enclosing
conversion fails at call time by panicking (no typed error value is
returned and no host call is recorded); the check is lazy — it happens on
first use inside the conversion, not at start-up — so a conversion that
does not need nanoarrow (importing from a full arrow object through its own
`export_to_c` method) still succeeds in the same environment. -/
theorem c7_missing_capability_panics_lazily (env : HostEnv)
    (a : ArrayData) (f : Field) (c : FFISchema)
    (henv : env.nanoarrow = false) (hf : exportField f = some c) :
    ArrayData.to_arrow_robj a env = (.panicked "`nanoarrow` must be installed", []) ∧
    Field.to_arrow_robj f env = (.panicked "`nanoarrow` must be installed", []) ∧
    Field.from_arrow_robj (.arrowField f) env = (.ok f, [.methodCall "export_to_c"]) := by
  obtain ⟨nano⟩ := env
  simp only [HostEnv.nanoarrow] at henv
  subst henv
  refine ⟨rfl, ?_, ?_⟩
  · simp only [Field.to_arrow_robj, hf]
    rfl
  · have h1 := importField_exportField f c hf
    have key : Field.from_arrow_robj (.arrowField f) ⟨false⟩ =
        ((Conv.ofExcept (importField ((exportField f).getD FFISchema.empty)) ⟨false⟩).1,
         .methodCall "export_to_c" ::
         (Conv.ofExcept (importField ((exportField f).getD FFISchema.empty)) ⟨false⟩).2) := rfl
    rw [key, hf]
    simp only [Option.getD]
    rw [h1]
    rfl

/-- C7 amended witness: an int8 field in an environment without
nanoarrow. -/
theorem c7_missing_capability_panics_lazily_witness :
    (⟨false⟩ : HostEnv).nanoarrow = false ∧
    exportField (.mk "f" (.prim .int8) true) = some (.mk "c" "f" true []) ∧
    (ArrayData.to_arrow_robj ⟨.int32, 2, none, [7, 8]⟩ ⟨false⟩ =
      (.panicked "`nanoarrow` must be installed", []) ∧
     Field.to_arrow_robj (.mk "f" (.prim .int8) true) ⟨false⟩ =
      (.panicked "`nanoarrow` must be installed", []) ∧
     Field.from_arrow_robj (.arrowField (.mk "f" (.prim .int8) true)) ⟨false⟩ =
      (.ok (.mk "f" (.prim .int8) true), [.methodCall "export_to_c"])) :=
  ⟨rfl, rfl,
   c7_missing_capability_panics_lazily ⟨false⟩ ⟨.int32, 2, none, [7, 8]⟩
     (.mk "f" (.prim .int8) true) (.mk "c" "f" true []) rfl rfl⟩

/-- C9.  On a recognized batch stream, `RecordBatch::from_arrow_robj`
requires at least one successfully produced batch: a stream yielding zero
batches makes the `nth(0).unwrap()` panic, and a stream whose first pull is
an error result makes the `xi.unwrap()` panic — neither case returns an
`ErrArrowRobj` error value to the caller. -/
theorem c9_stream_import_panics_on_empty_or_error (env : HostEnv) (S : Schema)
    (e : ArrowErr) (rest : List (Except ArrowErr RecordBatch))
    (henv : env.nanoarrow = true) (hs : (exportSchemaFFI S).isSome = true) :
    RecordBatch.from_arrow_robj (.naStream S []) env =
      (.panicked "called `Option::unwrap()` on a `None` value",
       [.nanoarrowCall "nanoarrow_pointer_export"]) ∧
    RecordBatch.from_arrow_robj (.naStream S (.error e :: rest)) env =
      (.panicked "called `Result::unwrap()` on an `Err` value",
       [.nanoarrowCall "nanoarrow_pointer_export"]) := by
  obtain ⟨nano⟩ := env
  simp only [HostEnv.nanoarrow] at henv
  subst henv
  obtain ⟨c, hc⟩ := Option.isSome_iff_exists.mp hs
  have ht := Schema.try_from_exportSchemaFFI S c hc
  constructor
  · have hr : tryNewReader (some (S, ([] : List (Except ArrowErr RecordBatch)))) =
        .ok ⟨S, []⟩ := by
      simp [tryNewReader, hc, ht]
    have hin : Robj.inherits (.naStream S []) "nanoarrow_array_stream" = true := rfl
    have he : nanoarrow_export_stream (.naStream S []) ⟨true⟩ =
        (.ok (some (S, [])), [.nanoarrowCall "nanoarrow_pointer_export"]) := rfl
    simp only [RecordBatch.from_arrow_robj, hin, if_true, conv_bind_eq]
    rw [Conv.bind, he]
    simp only [hr]
    rfl
  · have hr : tryNewReader (some (S, .error e :: rest)) = .ok ⟨S, .error e :: rest⟩ := by
      simp [tryNewReader, hc, ht]
    have hin : Robj.inherits (.naStream S (.error e :: rest)) "nanoarrow_array_stream" = true := rfl
    have he : nanoarrow_export_stream (.naStream S (.error e :: rest)) ⟨true⟩ =
        (.ok (some (S, .error e :: rest)), [.nanoarrowCall "nanoarrow_pointer_export"]) := rfl
    simp only [RecordBatch.from_arrow_robj, hin, if_true, conv_bind_eq]
    rw [Conv.bind, he]
    simp only [hr]
    rfl

/-- C9 witness: an empty stream and an error-first stream. -/
theorem c9_stream_import_panics_on_empty_or_error_witness :
    (⟨true⟩ : HostEnv).nanoarrow = true ∧
    (exportSchemaFFI ⟨[.mk "id" (.prim .int32) false]⟩).isSome = true ∧
    (RecordBatch.from_arrow_robj (.naStream ⟨[.mk "id" (.prim .int32) false]⟩ []) ⟨true⟩ =
      (.panicked "called `Option::unwrap()` on a `None` value",
       [.nanoarrowCall "nanoarrow_pointer_export"]) ∧
     RecordBatch.from_arrow_robj
        (.naStream ⟨[.mk "id" (.prim .int32) false]⟩
          [.error (.cDataInterface "producer failure")]) ⟨true⟩ =
      (.panicked "called `Result::unwrap()` on an `Err` value",
       [.nanoarrowCall "nanoarrow_pointer_export"])) :=
  ⟨rfl, rfl,
   c9_stream_import_panics_on_empty_or_error ⟨true⟩ ⟨[.mk "id" (.prim .int32) false]⟩
     (.cDataInterface "producer failure") [] rfl rfl⟩

/-- C10.  `Vec<RecordBatch>::into_arrow_robj` succeeds on the empty vector,
producing a host stream carrying a fresh empty schema (zero fields) and
zero batches; on a non-empty vector the exported stream carries the schema
of the first batch and all the batches, in order, as successful items. -/
theorem c10_vec_recordbatch_empty_and_nonempty (env : HostEnv)
    (b : RecordBatch) (rest : List RecordBatch)
    (henv : env.nanoarrow = true) :
    vecRecordBatchIntoArrowRobj [] env =
      (.ok (.naStream ⟨[]⟩ []),
       [.nanoarrowCall "nanoarrow_allocate_array_stream",
        .nanoarrowCall "nanoarrow_pointer_move"]) ∧
    vecRecordBatchIntoArrowRobj (b :: rest) env =
      (.ok (.naStream b.schema ((b :: rest).map .ok)),
       [.nanoarrowCall "nanoarrow_allocate_array_stream",
        .nanoarrowCall "nanoarrow_pointer_move"]) := by
  obtain ⟨nano⟩ := env
  simp only [HostEnv.nanoarrow] at henv
  subst henv
  exact ⟨rfl, rfl⟩

/-- C10 witness: the empty vector and a singleton vector. -/
theorem c10_vec_recordbatch_empty_and_nonempty_witness :
    (⟨true⟩ : HostEnv).nanoarrow = true ∧
    (vecRecordBatchIntoArrowRobj [] ⟨true⟩ =
      (.ok (.naStream ⟨[]⟩ []),
       [.nanoarrowCall "nanoarrow_allocate_array_stream",
        .nanoarrowCall "nanoarrow_pointer_move"]) ∧
     vecRecordBatchIntoArrowRobj
        [⟨⟨[.mk "id" (.prim .int32) false]⟩, [⟨.int32, 5, none, [1, 2, 3, 4, 5]⟩]⟩] ⟨true⟩ =
      (.ok (.naStream ⟨[.mk "id" (.prim .int32) false]⟩
        ([⟨⟨[.mk "id" (.prim .int32) false]⟩, [⟨.int32, 5, none, [1, 2, 3, 4, 5]⟩]⟩].map .ok)),
       [.nanoarrowCall "nanoarrow_allocate_array_stream",
        .nanoarrowCall "nanoarrow_pointer_move"])) :=
  ⟨rfl,
   c10_vec_recordbatch_empty_and_nonempty ⟨true⟩
     ⟨⟨[.mk "id" (.prim .int32) false]⟩, [⟨.int32, 5, none, [1, 2, 3, 4, 5]⟩]⟩ [] rfl⟩

end ArrowExtendr
